import Mathlib

/-!
Verification of the signal/backtest/reconciliation engine of the
tqqq-strategy repository.

The source is a set of pandas/numpy scripts.  They are embedded here as
pure functions over `List ℚ` (price and return columns) and explicit
records (signal payloads, order intents).  Pandas `NaN` cells are modelled
as `none : Option ℚ`; every comparison against a possibly-`NaN` value uses
an explicit helper that returns `false` when the value is `none`, exactly
as IEEE-754 comparisons against NaN evaluate to `False` in Python.
Two source quantities are irrational over ℚ (the `np.sqrt(252)`
annualization constant inside the rolling-volatility column, and the
float power `(1+r) ** (1/years)` of the annualized return); following the
spec's own description of them as a fixed scaling constant and a power,
they are abstracted as function parameters (`sqrtQ`, `fpow`) so that all
definitions stay computable and exact.
-/

/-! ## Pandas primitives -/

/-- NaN-aware strict greater-than: `a > b` where `b` may be NaN (`none`).
Any comparison with NaN is `False` in Python float semantics. -/
def gtNaN (a : ℚ) : Option ℚ → Bool
  | some b => decide (a > b)
  | none => false

/-- NaN-aware strict less-than against a possibly-NaN right operand. -/
def ltNaN (a : ℚ) : Option ℚ → Bool
  | some b => decide (a < b)
  | none => false

/-- NaN-aware `≤` against a possibly-NaN right operand. -/
def leNaN (a : ℚ) : Option ℚ → Bool
  | some b => decide (a ≤ b)
  | none => false

/-- NaN-aware `≥` against a possibly-NaN right operand. -/
def geNaN (a : ℚ) : Option ℚ → Bool
  | some b => decide (a ≥ b)
  | none => false

/-- NaN-aware strict greater-than where the left operand may be NaN. -/
def gtNaNL : Option ℚ → ℚ → Bool
  | some a, b => decide (a > b)
  | none, _ => false

/-- NaN-aware strict less-than where the left operand may be NaN. -/
def ltNaNL : Option ℚ → ℚ → Bool
  | some a, b => decide (a < b)
  | none, _ => false

/-- Helper for `Series.shift(1)`: `prev` is the value shifted into the
current cell (NaN, i.e. `none`, at the first row). -/
def shift1Aux (prev : Option α) : List α → List (Option α)
  | [] => []
  | x :: xs => prev :: shift1Aux (some x) xs

/-- Pandas `Series.shift(1)`: every cell moves down one row and the first
row becomes NaN (`none`). -/
def shift1 (l : List α) : List (Option α) := shift1Aux none l

/-- NaN-propagating product of an (int-valued, possibly shifted-NaN) cell
with a (float, possibly NaN) cell, as in
`combined['signal'].shift(1) * combined['etf_return']`. -/
def optMulZ : Option ℤ → Option ℚ → Option ℚ
  | some a, some b => some ((a : ℚ) * b)
  | _, _ => none

/-- Pandas `Series.pct_change()` restricted to the defined cells: the value
at original row `i+1` is `(x[i+1] - x[i]) / x[i]`; the NaN first cell is
not included (it is what the scripts' `dropna` removes). -/
def pctChangeVals (xs : List ℚ) : List ℚ :=
  List.zipWith (fun cur prev => (cur - prev) / prev) (xs.drop 1) xs

/-- Pandas `Series.pct_change()` with its leading NaN cell, aligned 1:1
with the input column. -/
def pctChange (xs : List ℚ) : List (Option ℚ) :=
  match xs with
  | [] => []
  | _ :: _ => none :: (pctChangeVals xs).map some

/-- Pandas `Series.rolling(window=w).mean().dropna()`: the list of means of
every full trailing window of length `w` (empty when the series is shorter
than `w`). -/
def rollingMeanDrop (w : ℕ) (xs : List ℚ) : List ℚ :=
  (List.range (xs.length + 1 - w)).map (fun j => ((xs.drop j).take w).sum / w)

/-- Rolling mean value at row `i` of the column produced by
`Series.rolling(window=w).mean()`: NaN (`none`) while the window is not yet
full. -/
def smaAt (w : ℕ) (xs : List ℚ) (i : ℕ) : Option ℚ :=
  if i + 1 < w then none
  else some ((((xs.take (i + 1)).drop (i + 1 - w)).sum) / w)

/-- Rate-of-change cell at row `i` of `Series.pct_change(periods=p)`:
NaN (`none`) for the first `p` rows. -/
def rocAt (p : ℕ) (xs : List ℚ) (i : ℕ) : Option ℚ :=
  if i < p then none
  else some ((xs.getD i 0 - xs.getD (i - p) 0) / xs.getD (i - p) 0)

/-- Sample variance (pandas `std` uses `ddof=1`, so the divisor is
`len - 1`) of a list of rationals. -/
def sampleVar (l : List ℚ) : ℚ :=
  (l.map (fun x => (x - l.sum / l.length) ^ 2)).sum / ((l.length : ℚ) - 1)

/-- Volatility cell at row `i` of
`Close.pct_change().rolling(window=20).std() * np.sqrt(252)`
(soxl_strategy.py line 48).  The returns column starts with a NaN, so the
20-cell window is fully populated only from row 20 on.  `sqrtQ` abstracts
the real square root (both the sample standard deviation and the
annualization constant `np.sqrt 252` are irrational over ℚ). -/
def volAt (sqrtQ : ℚ → ℚ) (xs : List ℚ) (i : ℕ) : Option ℚ :=
  if i < 20 then none
  else some (sqrtQ (sampleVar (((pctChangeVals xs).take i).drop (i - 20))) * sqrtQ 252)

/-- Pandas `Series.min()` on a NaN-free column: `none` on an empty column
(the scripts only call it after producing at least one row). -/
def listMin : List ℚ → Option ℚ
  | [] => none
  | x :: xs => some (xs.foldl min x)

/-! ## backtest.py — single-MA backtest pipeline -/

namespace Backtest

/-- Signal column of backtest.py lines 58–63 restricted to the rows that
survive the `dropna` after the rolling mean: row `t` holds `1` when the
index close is strictly above its `w`-day SMA, else `0`. -/
def signalCol (w : ℕ) (idx : List ℚ) : List ℤ :=
  List.zipWith (fun p s => if p > s then (1 : ℤ) else 0)
    (idx.drop (w - 1)) (rollingMeanDrop w idx)

/-- ETF close column restricted to the same valid rows. -/
def validEtf (w : ℕ) (etf : List ℚ) : List ℚ := etf.drop (w - 1)

/-- Strategy-return column as built by backtest.py lines 66–67:
`combined['signal'].shift(1) * combined['etf_close'].pct_change()`,
NaN cells included (both factors are NaN at row 0). -/
def stratRetOpt (signal : List ℤ) (etfRet : List (Option ℚ)) : List (Option ℚ) :=
  List.zipWith optMulZ (shift1 signal) etfRet

/-- Strategy-return column after the `dropna` of backtest.py line 71
("Remove first row (NaN from pct_change)"): row `t` of the final frame is
`signal[t] * etf_return[t+1]` over the valid rows. -/
def stratRetFinal (w : ℕ) (idx etf : List ℚ) : List ℚ :=
  List.zipWith (fun (s : ℤ) (r : ℚ) => (s : ℚ) * r)
    (signalCol w idx) (pctChangeVals (validEtf w etf))

/-- Cumulative equity factor `(1 + returns).cumprod()` with running
accumulator, backtest.py line 74. -/
def cumprodAux (acc : ℚ) : List ℚ → List ℚ
  | [] => []
  | r :: rs => (acc * (1 + r)) :: cumprodAux (acc * (1 + r)) rs

/-- Pandas `(1 + series).cumprod()`. -/
def cumprodOnePlus (rs : List ℚ) : List ℚ := cumprodAux 1 rs

/-- Running maximum tail, carrying the maximum seen so far. -/
def runningMaxAux (acc : ℚ) : List ℚ → List ℚ
  | [] => []
  | x :: xs => (max acc x) :: runningMaxAux (max acc x) xs

/-- Pandas `series.expanding().max()` (backtest.py line 110). -/
def runningMax : List ℚ → List ℚ
  | [] => []
  | x :: xs => x :: runningMaxAux x xs

/-- Drawdown column `(cumulative - rolling_max) / rolling_max`
(backtest.py line 111). -/
def drawdowns (c : List ℚ) : List ℚ :=
  List.zipWith (fun x m => (x - m) / m) c (runningMax c)

/-- Reported maximum drawdown `drawdowns.min()` (backtest.py line 112). -/
def maxDrawdown (c : List ℚ) : Option ℚ := listMin (drawdowns c)

/-- Trade count of backtest.py line 120:
`(data['signal'] != data['signal'].shift(1)).sum()`.  The first row's
shifted cell is NaN and an `int != NaN` comparison is `True` in pandas, so
a nonempty column always counts its first row. -/
def tradeCountPandas (xs : List ℤ) : ℕ :=
  (List.zipWith (fun x p => match p with
      | none => true
      | some y => decide (x ≠ y)) xs (shift1 xs)).count true

/-- The count the claim describes: indices `i ≥ 1` (those having a
predecessor) at which `position[i] ≠ position[i-1]`. -/
def claimTradeCount (xs : List ℤ) : ℕ :=
  (List.zipWith (fun a b => decide (a ≠ b)) xs.tail xs).count true

/-- Annualized return of backtest.py lines 99–100:
`years = len(data)/252 ; (1 + total_return) ** (1/years) - 1`.
When the frame has zero rows Python raises `ZeroDivisionError` on
`1/years`, modelled as `none`.  `fpow` abstracts the float power. -/
def annualReturnTqqq (fpow : ℚ → ℚ → ℚ) (totalReturn : ℚ) (n : ℕ) : Option ℚ :=
  if n = 0 then none
  else some (fpow (1 + totalReturn) (1 / ((n : ℚ) / 252)) - 1)

end Backtest

/-! ## soxl_backtest.py — dual-MA + momentum backtest -/

namespace SoxlBacktest

/-- Row-level position rule of soxl_backtest.py lines 84–89
(`np.select` with the long condition first, then the short condition whose
choice is `-1 if use_shorts else 0`, default `0`). -/
def positionOf (useShorts : Bool) (above200 above50 strongUp strongDown : Bool) : ℤ :=
  if above200 && above50 && strongUp then 1
  else if !above200 && !above50 && strongDown then (if useShorts then -1 else 0)
  else 0

/-- Position at one row from the raw indicator values of lines 78–81:
`above_200 = close > sma_200`, `above_50 = close > sma_50`,
`strong_up = roc > θ`, `strong_down = roc < -θ`. -/
def positionRow (useShorts : Bool) (price sma200 sma50 roc θ : ℚ) : ℤ :=
  positionOf useShorts (decide (price > sma200)) (decide (price > sma50))
    (decide (roc > θ)) (decide (roc < -θ))

/-- Strategy-return column of soxl_backtest.py lines 99–107:
`np.where(position.shift(1) == 1, long_return,
np.where(position.shift(1) == -1, short_return, 0))`.  A NaN in the
shifted position column compares unequal to both `1` and `-1`, so the
first row selects `0`; a NaN in the selected return column propagates. -/
def soxlStratRet (position : List ℤ) (longRet shortRet : List (Option ℚ)) : List (Option ℚ) :=
  List.zipWith
    (fun po pr => if po = some 1 then pr.1 else if po = some (-1) then pr.2 else some 0)
    (shift1 position) (List.zipWith Prod.mk longRet shortRet)

/-- Annualized return of soxl_backtest.py lines 137–138:
`(1 + total_return) ** (1/years) - 1 if years > 0 else 0` — the guarded
variant. -/
def annualReturnSoxl (fpow : ℚ → ℚ → ℚ) (totalReturn : ℚ) (n : ℕ) : ℚ :=
  if ((n : ℚ) / 252) > 0 then fpow (1 + totalReturn) (1 / ((n : ℚ) / 252)) - 1 else 0

end SoxlBacktest

/-! ## strategy.py — single-MA signal generator -/

namespace Strategy

/-- Signal payload returned by strategy.py `get_signal` (the dict of lines
61–74).  Reporting-only fields are carried unrounded: the source applies
`round(·, 2)` for display, which is binary-float presentation rounding. -/
structure TqqqSig where
  price : ℚ
  sma : ℚ
  maPeriod : ℕ
  aboveMa : Bool
  signal : String
  positionTicker : String
  allocation : ℚ
  crossedUp : Bool
  crossedDown : Bool
  distanceFromMa : ℚ
  deriving Repr, DecidableEq

/-- strategy.py `get_signal` (lines 26–74).  Returns `none` for the error
dict of line 34 (`len(data) < ma_period`).  `latest`/`prev` are the last
two rows; the previous row's SMA cell may be NaN, and the crossover
comparisons against it follow float-NaN semantics (any comparison with NaN
is false). -/
def get_signal (maPeriod : ℕ) (closes : List ℚ) : Option TqqqSig :=
  if closes.length < maPeriod then none
  else
    let n := closes.length
    let currentPrice := closes.getD (n - 1) 0
    let currentSmaOpt := smaAt maPeriod closes (n - 1)
    let currentSma := currentSmaOpt.getD 0
    let prevPrice := closes.getD (n - 2) 0
    let prevSmaOpt := smaAt maPeriod closes (n - 2)
    let aboveMa := decide (currentPrice > currentSma)
    let crossedUp := decide (currentPrice > currentSma) && leNaN prevPrice prevSmaOpt
    let crossedDown := decide (currentPrice < currentSma) && geNaN prevPrice prevSmaOpt
    some
      { price := currentPrice
        sma := currentSma
        maPeriod := maPeriod
        aboveMa := aboveMa
        signal := if aboveMa then "LONG" else "CASH"
        positionTicker := if aboveMa then "TQQQ" else "CASH"
        allocation := if aboveMa then 1 else 0
        crossedUp := crossedUp
        crossedDown := crossedDown
        distanceFromMa := (currentPrice - currentSma) / currentSma * 100 }

/-- Number of rows of an `n`-row series on which a `w`-window rolling
indicator is defined (the valid indicator rows): `n + 1 - w`, truncated
at zero. -/
def validIndicatorRows (w n : ℕ) : ℕ := n + 1 - w

/-- Concrete signal payload produced by `get_signal 3 [1, 2, 3]`
(a three-point series with exactly one valid indicator row), used by
instantiation lemmas. -/
def tqqqSigExample : TqqqSig :=
  { price := 3
    sma := 2
    maPeriod := 3
    aboveMa := true
    signal := "LONG"
    positionTicker := "TQQQ"
    allocation := 1
    crossedUp := false
    crossedDown := false
    distanceFromMa := 50 }

end Strategy

/-! ## soxl_strategy.py — dual-MA + momentum signal generator -/

namespace SoxlStrategy

/-- soxl_strategy.py `calculate_position_size` (lines 133–157).  The
volatility argument is the float cell `latest['Volatility']`, which may be
NaN (`none`); both NaN comparisons are then false and the multiplier is 1.
The `bullish` flag is accepted but, as in the source, unused by the
arithmetic. -/
def calculate_position_size (trendStrength : ℚ) (volatility : Option ℚ) (bullish : Bool) : ℚ :=
  let base : ℚ := 1
  let trendMult := min 1 (1/2 + |trendStrength| * 2)
  let volMult : ℚ :=
    if gtNaNL volatility (1/2) then 1/2
    else if gtNaNL volatility (7/20) then 3/4
    else 1
  let allocation := base * trendMult * volMult
  min 1 allocation

/-- soxl_strategy.py `get_market_regime` (lines 160–177); `roc` is a float
cell that may be NaN, in which case every threshold comparison is false. -/
def get_market_regime (above200 above50 : Bool) (roc : Option ℚ) : String :=
  if above200 && above50 then
    if gtNaNL roc (1/20) then "STRONG_UPTREND"
    else if gtNaNL roc 0 then "UPTREND"
    else "WEAKENING_UPTREND"
  else if !above200 && !above50 then
    if ltNaNL roc (-(1/20)) then "STRONG_DOWNTREND"
    else if ltNaNL roc 0 then "DOWNTREND"
    else "WEAKENING_DOWNTREND"
  else "TRANSITION"

/-- Signal payload returned by soxl_strategy.py `get_signal` (the dict of
lines 113–130), reporting fields unrounded as in `Strategy.TqqqSig`. -/
structure SoxlSig where
  price : ℚ
  sma200 : ℚ
  sma50 : ℚ
  roc : Option ℚ
  volatility : Option ℚ
  trendStrength : ℚ
  above200 : Bool
  above50 : Bool
  signal : String
  positionTicker : String
  allocation : ℚ
  crossedUp200 : Bool
  crossedDown200 : Bool
  regime : String
  deriving Repr, DecidableEq

/-- soxl_strategy.py `get_signal` (lines 56–130), parametrized by the
module constants `MA_LONG`, `MA_SHORT`, `ROC_PERIOD`, `ROC_THRESHOLD`
(200, 50, 20, 2/100 in the source) and by `sqrtQ` for the irrational
square root inside the volatility column.  Returns `none` for the error
dict of line 72 (`len(df) < MA_LONG`).  The latest row's 200-day SMA is
defined once that check passes; the 50-day SMA, ROC and volatility cells
may still be NaN and are compared with float-NaN semantics. -/
def get_signal (maLong maShort rocPeriod : ℕ) (θ : ℚ) (sqrtQ : ℚ → ℚ)
    (closes : List ℚ) : Option SoxlSig :=
  if closes.length < maLong then none
  else
    let n := closes.length
    let price := closes.getD (n - 1) 0
    let sma200Opt := smaAt maLong closes (n - 1)
    let sma200 := sma200Opt.getD 0
    let sma50Opt := smaAt maShort closes (n - 1)
    let roc := rocAt rocPeriod closes (n - 1)
    let vol := volAt sqrtQ closes (n - 1)
    let trendStrength := (price - sma200) / sma200
    let above200 := gtNaN price sma200Opt
    let above50 := gtNaN price sma50Opt
    let below200 := ltNaN price sma200Opt
    let below50 := ltNaN price sma50Opt
    let strongUp := gtNaNL roc θ
    let strongDown := ltNaNL roc (-θ)
    let prevAbove200 := gtNaN (closes.getD (n - 2) 0) (smaAt maLong closes (n - 2))
    let sigTriple : String × String × ℚ :=
      if above200 && above50 && strongUp then
        ("LONG", "SOXL", calculate_position_size trendStrength vol true)
      else if below200 && below50 && strongDown then
        ("SHORT", "SOXS", calculate_position_size |trendStrength| vol false)
      else ("CASH", "CASH", 0)
    some
      { price := price
        sma200 := sma200
        sma50 := sma50Opt.getD 0
        roc := roc
        volatility := vol
        trendStrength := trendStrength
        above200 := above200
        above50 := above50
        signal := sigTriple.1
        positionTicker := sigTriple.2.1
        allocation := sigTriple.2.2
        crossedUp200 := above200 && !prevAbove200
        crossedDown200 := !above200 && prevAbove200
        regime := get_market_regime above200 above50 roc }

/-- Concrete signal payload produced by
`get_signal 3 2 1 (1/100) (fun q => q) [1, 2, 4]`, used by instantiation
lemmas. -/
def soxlSigExample : SoxlSig :=
  { price := 4
    sma200 := 7/3
    sma50 := 3
    roc := some 1
    volatility := none
    trendStrength := 5/7
    above200 := true
    above50 := true
    signal := "LONG"
    positionTicker := "SOXL"
    allocation := 1
    crossedUp200 := true
    crossedDown200 := false
    regime := "STRONG_UPTREND" }

end SoxlStrategy

/-! ## trade.py — execution reconciliation -/

namespace Trade

/-- Order side of an Alpaca market order. -/
inductive Side where
  | buy
  | sell
  deriving Repr, DecidableEq

/-- An order intent as submitted by `execute_trade`. -/
structure Order where
  symbol : String
  qty : ℤ
  side : Side
  deriving Repr, DecidableEq

/-- Python `int(q)` for the nonnegative quantities of
`calculate_target_position`: truncation toward zero. -/
def pyInt (q : ℚ) : ℤ := q.num / q.den

/-- trade.py `calculate_target_position` (lines 108–112):
`int(portfolio_value * allocation / current_price)`. -/
def calculate_target_position (allocation portfolioValue currentPrice : ℚ) : ℤ :=
  pyInt (portfolioValue * allocation / currentPrice)

/-- Order sequence emitted by trade.py `run_strategy` (lines 159–234) as a
pure function of the signal string, the `USE_SHORTS` flag, the account and
price snapshot, and the current TQQQ/SQQQ holdings.  The source interleaves
each `execute_trade` call with printing; the emitted intents, in order,
are:
LONG target — close any SQQQ first, then buy/sell TQQQ toward the target;
SHORT target (only when `USE_SHORTS`) — close any TQQQ first, then buy
SQQQ if short of the target (no sell branch in the source);
otherwise (CASH) — close TQQQ then SQQQ. -/
def run_strategy_orders (signal : String) (useShorts : Bool)
    (allocation portfolioValue tqqqPrice sqqqPrice : ℚ)
    (currentTqqq currentSqqq : ℤ) : List Order :=
  let targetTicker : Option String :=
    if signal = "SHORT" ∧ useShorts then some "SQQQ"
    else if signal = "LONG" then some "TQQQ"
    else none
  if targetTicker = some "TQQQ" then
    let targetShares := calculate_target_position allocation portfolioValue tqqqPrice
    let sharesToTrade := targetShares - currentTqqq
    (if currentSqqq > 0 then [⟨"SQQQ", currentSqqq, Side.sell⟩] else []) ++
    (if sharesToTrade > 0 then [⟨"TQQQ", sharesToTrade, Side.buy⟩]
     else if sharesToTrade < 0 then [⟨"TQQQ", -sharesToTrade, Side.sell⟩]
     else [])
  else if targetTicker = some "SQQQ" then
    let targetShares := calculate_target_position allocation portfolioValue sqqqPrice
    let sharesToTrade := targetShares - currentSqqq
    (if currentTqqq > 0 then [⟨"TQQQ", currentTqqq, Side.sell⟩] else []) ++
    (if sharesToTrade > 0 then [⟨"SQQQ", sharesToTrade, Side.buy⟩] else [])
  else
    (if currentTqqq > 0 then [⟨"TQQQ", currentTqqq, Side.sell⟩] else []) ++
    (if currentSqqq > 0 then [⟨"SQQQ", currentSqqq, Side.sell⟩] else [])

end Trade

/-! ## Column-index mutation model (backtest.py lines 46–55) -/

namespace FrameEffect

/-- A pandas column index: flat labels, or the two-level MultiIndex that
yfinance returns (label, ticker). -/
inductive PdCols where
  | flat : List String → PdCols
  | multi : List (String × String) → PdCols
  deriving Repr, DecidableEq

/-- backtest.py lines 47–50: `if isinstance(df.columns, MultiIndex):
df.columns = df.columns.get_level_values(0)` — flatten a MultiIndex to its
first level, leave a flat index unchanged. -/
def flattenIfMulti : PdCols → PdCols
  | PdCols.multi ps => PdCols.flat (ps.map Prod.fst)
  | c => c

/-- State-passing view of backtest.py `run_backtest`'s effect on its two
caller-owned input frames: the `.columns` assignments of lines 47–50 are
in-place mutations of the caller's objects (no copy is taken), so the
caller's column indexes after the call are the flattened ones. -/
def runBacktestColsEffect (indexCols etfCols : PdCols) : PdCols × PdCols :=
  (flattenIfMulti indexCols, flattenIfMulti etfCols)

/-- State-passing view of strategy.py `get_signal`'s effect on the
caller's frame: line 36 takes `data = data.copy()` before any write, so
the caller's frame is returned unchanged. -/
def getSignalFrameEffect (d : PdCols) : PdCols := d

/-- State-passing view of soxl_strategy.py `calculate_indicators`'s effect
on the caller's frame: line 38 takes `df = data.copy()` before any write,
so the caller's frame is returned unchanged. -/
def calculateIndicatorsFrameEffect (d : PdCols) : PdCols := d

/-- State-passing view of soxl_backtest.py `run_backtest`'s effect on its
input frames: lines 55–68 copy the Close columns (`.copy()`) and build a
fresh frame, never assigning into the inputs, so the callers' frames are
returned unchanged. -/
def soxlRunBacktestFrameEffect (indexCols longCols shortCols : PdCols) :
    PdCols × PdCols × PdCols :=
  (indexCols, longCols, shortCols)

end FrameEffect

/-! ## General list lemmas -/

theorem shift1Aux_length (l : List α) : ∀ prev : Option α, (shift1Aux prev l).length = l.length := by
  induction l with
  | nil => intro prev; rfl
  | cons x xs ih => intro prev; simp [shift1Aux, ih]

theorem zipWith_getD (f : α → β → γ) :
    ∀ (l1 : List α) (l2 : List β) (i : ℕ) (d1 : α) (d2 : β) (d3 : γ),
      i < l1.length → i < l2.length →
      (List.zipWith f l1 l2).getD i d3 = f (l1.getD i d1) (l2.getD i d2)
  | [], _, i, _, _, _, h1, _ => absurd h1 (by simp)
  | _ :: _, [], i, _, _, _, _, h2 => absurd h2 (by simp)
  | a :: l1, b :: l2, 0, d1, d2, d3, _, _ => rfl
  | a :: l1, b :: l2, i + 1, d1, d2, d3, h1, h2 => by
      simpa using zipWith_getD f l1 l2 i d1 d2 d3 (by simpa using h1) (by simpa using h2)

theorem shift1Aux_getD (d : α) :
    ∀ (l : List α) (prev : Option α) (i : ℕ), i + 1 < l.length →
      (shift1Aux prev l).getD (i + 1) none = some (l.getD i d)
  | [], _, _, h => absurd h (by simp)
  | x :: xs, prev, 0, h => by
      match xs, h with
      | y :: ys, _ => rfl
  | x :: xs, prev, i + 1, h => by
      have hrec := shift1Aux_getD d xs (some x) i (by simpa using h)
      simpa [shift1Aux] using hrec

theorem mem_zipWith_decomp {f : α → β → γ} :
    ∀ {l1 : List α} {l2 : List β} {c : γ}, c ∈ List.zipWith f l1 l2 →
      ∃ a, a ∈ l1 ∧ ∃ b, b ∈ l2 ∧ c = f a b
  | [], _, _, h => absurd h (by simp)
  | _ :: _, [], _, h => absurd h (by simp)
  | a :: l1, b :: l2, c, h => by
      rcases List.mem_cons.1 h with h | h
      · exact ⟨a, List.mem_cons_self _ _, b, List.mem_cons_self _ _, h⟩
      · obtain ⟨a', ha, b', hb, rfl⟩ := mem_zipWith_decomp h
        exact ⟨a', List.mem_cons_of_mem _ ha, b', List.mem_cons_of_mem _ hb, rfl⟩

theorem foldl_min_le : ∀ (l : List ℚ) (a : ℚ), l.foldl min a ≤ a
  | [], a => le_refl a
  | x :: xs, a => le_trans (foldl_min_le xs (min a x)) (min_le_left a x)

theorem cumprodAux_pos :
    ∀ (rs : List ℚ) (acc : ℚ), 0 < acc → (∀ r ∈ rs, 0 < 1 + r) →
      ∀ x ∈ Backtest.cumprodAux acc rs, 0 < x
  | [], _, _, _, x, hx => absurd hx (by simp [Backtest.cumprodAux])
  | r :: rs, acc, hacc, hall, x, hx => by
      have hpos : 0 < acc * (1 + r) := mul_pos hacc (hall r (by simp))
      simp only [Backtest.cumprodAux, List.mem_cons] at hx
      rcases hx with rfl | hx
      · exact hpos
      · exact cumprodAux_pos rs _ hpos (fun r' hr' => hall r' (by simp [hr'])) x hx

/-! ## C1 — one-period lag (no look-ahead) -/

/-- C1: for every aligned signal/return pair of series, the strategy
return at period `t+1` is the position decided at period `t` times the
instrument's realized return over period `t+1` — in backtest.py
(`signal.shift(1) * etf_return`) and in soxl_backtest.py (the nested
`np.where` on `position.shift(1)` selecting the long, short or zero
return); consequently, when the signal is CASH strictly before index `k`
and flips to LONG at `k`, every strategy return up to index `k` is `0` and
the one at `k+1` is exactly the instrument return at `k+1` — never at `k`
itself. -/
theorem claim1_one_period_lag :
    (∀ (signal : List ℤ) (etfRet : List (Option ℚ)) (t : ℕ),
        t + 1 < signal.length → t + 1 < etfRet.length →
        (Backtest.stratRetOpt signal etfRet).getD (t + 1) none =
          optMulZ (some (signal.getD t 0)) (etfRet.getD (t + 1) none)) ∧
    (∀ (position : List ℤ) (longRet shortRet : List (Option ℚ)) (t : ℕ),
        t + 1 < position.length → t + 1 < longRet.length → t + 1 < shortRet.length →
        (SoxlBacktest.soxlStratRet position longRet shortRet).getD (t + 1) none =
          (if position.getD t 0 = 1 then longRet.getD (t + 1) none
           else if position.getD t 0 = -1 then shortRet.getD (t + 1) none
           else some 0)) ∧
    (∀ (signal : List ℤ) (etfRet : List (Option ℚ)) (k : ℕ),
        k + 1 < signal.length → k + 1 < etfRet.length →
        (∀ j, j < k → signal.getD j 0 = 0) → signal.getD k 0 = 1 →
        (∀ t, t + 1 ≤ k → etfRet.getD (t + 1) none ≠ none →
          (Backtest.stratRetOpt signal etfRet).getD (t + 1) none = some 0) ∧
        (Backtest.stratRetOpt signal etfRet).getD (k + 1) none = etfRet.getD (k + 1) none) := by
  have lagA : ∀ (signal : List ℤ) (etfRet : List (Option ℚ)) (t : ℕ),
      t + 1 < signal.length → t + 1 < etfRet.length →
      (Backtest.stratRetOpt signal etfRet).getD (t + 1) none =
        optMulZ (some (signal.getD t 0)) (etfRet.getD (t + 1) none) := by
    intro signal etfRet t hs hr
    have h1 : t + 1 < (shift1 signal).length := by
      simpa [shift1, shift1Aux_length] using hs
    rw [Backtest.stratRetOpt, zipWith_getD optMulZ (shift1 signal) etfRet (t + 1) none none none h1 hr,
      shift1, shift1Aux_getD (0 : ℤ) signal none t hs]
  refine ⟨lagA, ?_, ?_⟩
  · intro position longRet shortRet t hp hl hr
    have h1 : t + 1 < (shift1 position).length := by
      simpa [shift1, shift1Aux_length] using hp
    have h2 : t + 1 < (List.zipWith Prod.mk longRet shortRet).length := by
      simp only [List.length_zipWith]
      exact lt_min hl hr
    rw [SoxlBacktest.soxlStratRet,
      zipWith_getD _ (shift1 position) (List.zipWith Prod.mk longRet shortRet) (t + 1)
        none (none, none) none h1 h2,
      shift1, shift1Aux_getD (0 : ℤ) position none t hp,
      zipWith_getD Prod.mk longRet shortRet (t + 1) none none (none, none) hl hr]
    simp [Option.some.injEq]
  · intro signal etfRet k hs hr hzero hone
    constructor
    · intro t ht hdef
      have hbs : t + 1 < signal.length := by omega
      have hbr : t + 1 < etfRet.length := by omega
      rw [lagA signal etfRet t hbs hbr, hzero t (Nat.lt_of_succ_le ht)]
      obtain ⟨r, hrr⟩ := Option.ne_none_iff_exists'.1 hdef
      rw [hrr]
      simp [optMulZ]
    · rw [lagA signal etfRet k hs hr, hone]
      cases etfRet.getD (k + 1) none with
      | none => rfl
      | some b => simp [optMulZ]

/-- Concrete instantiation of `claim1_one_period_lag`: signal `[0, 1, 1]`
(CASH, then LONG from index 1), returns `[none, some 5, some 7]`. -/
theorem claim1_one_period_lag_witness :
    (Backtest.stratRetOpt [0, 1, 1] [none, some 5, some 7]).getD 1 none =
      optMulZ (some (([0, 1, 1] : List ℤ).getD 0 0))
        (([none, some 5, some 7] : List (Option ℚ)).getD 1 none) ∧
    (SoxlBacktest.soxlStratRet [1, -1, 0] [none, some 5, some 7] [some 9, some 8, some 6]).getD 2 none =
      (if ([1, -1, 0] : List ℤ).getD 1 0 = 1
       then ([none, some 5, some 7] : List (Option ℚ)).getD 2 none
       else if ([1, -1, 0] : List ℤ).getD 1 0 = -1
       then ([some 9, some 8, some 6] : List (Option ℚ)).getD 2 none
       else some 0) ∧
    ((∀ t, t + 1 ≤ 1 → ([none, some 5, some 7] : List (Option ℚ)).getD (t + 1) none ≠ none →
        (Backtest.stratRetOpt [0, 1, 1] [none, some 5, some 7]).getD (t + 1) none = some 0) ∧
      (Backtest.stratRetOpt [0, 1, 1] [none, some 5, some 7]).getD 2 none =
        ([none, some 5, some 7] : List (Option ℚ)).getD 2 none) :=
  ⟨claim1_one_period_lag.1 [0, 1, 1] [none, some 5, some 7] 0 (by decide) (by decide),
   claim1_one_period_lag.2.1 [1, -1, 0] [none, some 5, some 7] [some 9, some 8, some 6] 1
     (by decide) (by decide) (by decide),
   claim1_one_period_lag.2.2 [0, 1, 1] [none, some 5, some 7] 1 (by decide) (by decide)
     (by decide) (by decide)⟩

/-! ## C2 — close-before-open sequencing -/

/-- C2: whenever trade.py `run_strategy` targets LONG while a nonzero SQQQ
holding exists, the first emitted order is a SELL of the full SQQQ holding
and every other order in the sequence touches only TQQQ (so every order on
the target instrument comes strictly after the close); symmetrically for a
SHORT target (shorting enabled) with a nonzero TQQQ holding. -/
theorem claim2_close_before_open (useShorts : Bool) (alloc pv tqP sqP : ℚ) (ctq csq : ℤ) :
    (0 < csq → ∃ rest,
      Trade.run_strategy_orders "LONG" useShorts alloc pv tqP sqP ctq csq =
        ⟨"SQQQ", csq, Trade.Side.sell⟩ :: rest ∧ ∀ o ∈ rest, o.symbol = "TQQQ") ∧
    (0 < ctq → ∃ rest,
      Trade.run_strategy_orders "SHORT" true alloc pv tqP sqP ctq csq =
        ⟨"TQQQ", ctq, Trade.Side.sell⟩ :: rest ∧ ∀ o ∈ rest, o.symbol = "SQQQ") := by
  constructor
  · intro hcsq
    have hns : ¬(("LONG" : String) = "SHORT" ∧ useShorts = true) := by
      rintro ⟨h, -⟩; exact absurd h (by decide)
    simp only [Trade.run_strategy_orders, if_neg hns, if_pos rfl, reduceIte, if_pos hcsq]
    refine ⟨_, rfl, ?_⟩
    intro o ho
    split at ho <;> simp_all
  · intro hctq
    have hs : (("SHORT" : String) = "SHORT" ∧ (true : Bool) = true) := ⟨rfl, rfl⟩
    simp only [Trade.run_strategy_orders, if_pos hs, reduceIte, if_pos hctq]
    refine ⟨_, rfl, ?_⟩
    intro o ho
    split at ho <;> simp_all

/-- Concrete instantiation of `claim2_close_before_open`. -/
theorem claim2_close_before_open_witness :
    (∃ rest,
      Trade.run_strategy_orders "LONG" false 1 100000 50 10 0 7 =
        ⟨"SQQQ", 7, Trade.Side.sell⟩ :: rest ∧ ∀ o ∈ rest, o.symbol = "TQQQ") ∧
    (∃ rest,
      Trade.run_strategy_orders "SHORT" true 1 100000 50 10 5 0 =
        ⟨"TQQQ", 5, Trade.Side.sell⟩ :: rest ∧ ∀ o ∈ rest, o.symbol = "SQQQ") :=
  ⟨(claim2_close_before_open false 1 100000 50 10 0 7).1 (by norm_num),
   (claim2_close_before_open true 1 100000 50 10 5 0).2 (by norm_num)⟩

/-! ## C3 — trade count -/

/-- C3 counterexample: for the alternating LONG/CASH/LONG signal
`[1, 0, 1]` the code's pandas trade count is `3` (the first row's
comparison against the shifted-in NaN is `True` and is counted), while the
number of indices with a differing predecessor is `2`, so the reported
count is not the number of position flips. -/
theorem claim3_counterexample :
    Backtest.tradeCountPandas [1, 0, 1] = 3 ∧
    Backtest.claimTradeCount [1, 0, 1] = 2 ∧
    Backtest.tradeCountPandas [1, 0, 1] ≠ Backtest.claimTradeCount [1, 0, 1] := by
  decide

theorem zipWith_shift1Aux_eq (x : ℤ) :
    ∀ rest : List ℤ,
      List.zipWith (fun a p => match p with
          | none => true
          | some y => decide (a ≠ y)) rest (shift1Aux (some x) rest) =
        List.zipWith (fun a b => decide (a ≠ b)) rest (x :: rest)
  | [] => rfl
  | r :: rs => by
      simp only [shift1Aux, List.zipWith]
      exact congrArg _ (zipWith_shift1Aux_eq r rs)

/-- C3 amended: on every nonempty position column the reported trade count
is one more than the number of indices whose position differs from the
previous index's position — the first row of the simulated range always
contributes one trade (its shifted predecessor is NaN and compares
unequal). -/
theorem claim3_amended (xs : List ℤ) (h : xs ≠ []) :
    Backtest.tradeCountPandas xs = Backtest.claimTradeCount xs + 1 := by
  match xs, h with
  | x :: rest, _ =>
    simp only [Backtest.tradeCountPandas, Backtest.claimTradeCount, shift1, shift1Aux,
      List.zipWith, List.tail_cons]
    rw [zipWith_shift1Aux_eq x rest]
    simp [List.count_cons]

/-- Concrete instantiation of `claim3_amended` on `[5, 5, 7]`. -/
theorem claim3_amended_witness :
    Backtest.tradeCountPandas [5, 5, 7] = Backtest.claimTradeCount [5, 5, 7] + 1 :=
  claim3_amended [5, 5, 7] (by decide)

/-! ## C4 — maximum drawdown is never positive -/

/-- C4: the reported maximum drawdown — the minimum of
`(equity - running_max) / running_max` over the simulated range — is at
most `0` for every nonempty return series drawn from positive prices
(every per-period return then exceeds `-1`), and the single-MA pipeline's
strategy returns from any positive ETF price series do exceed `-1`. -/
theorem claim4_max_drawdown_nonpos :
    (∀ rs : List ℚ, rs ≠ [] → (∀ r ∈ rs, -1 < r) →
      ∃ d, Backtest.maxDrawdown (Backtest.cumprodOnePlus rs) = some d ∧ d ≤ 0) ∧
    (∀ (w : ℕ) (idx etf : List ℚ), (∀ p ∈ etf, 0 < p) →
      ∀ r ∈ Backtest.stratRetFinal w idx etf, -1 < r) := by
  constructor
  · intro rs hne _hall
    match rs, hne with
    | r :: rs', _ =>
      simp only [Backtest.cumprodOnePlus, Backtest.cumprodAux, Backtest.maxDrawdown,
        Backtest.drawdowns, Backtest.runningMax, List.zipWith, listMin]
      refine ⟨_, rfl, ?_⟩
      have h0 : (1 * (1 + r) - 1 * (1 + r)) / (1 * (1 + r)) = 0 := by
        rw [sub_self, zero_div]
      rw [h0]
      exact foldl_min_le _ 0
  · intro w idx etf hpos r hr
    simp only [Backtest.stratRetFinal] at hr
    obtain ⟨s, hs, r', hr', rfl⟩ := mem_zipWith_decomp hr
    simp only [Backtest.signalCol] at hs
    obtain ⟨p, -, m, -, rfl⟩ := mem_zipWith_decomp hs
    simp only [pctChangeVals, Backtest.validEtf] at hr'
    obtain ⟨cur, hcur, prev, hprev, rfl⟩ := mem_zipWith_decomp hr'
    have hcur' : (0 : ℚ) < cur :=
      hpos cur (List.mem_of_mem_drop (List.mem_of_mem_drop hcur))
    have hprev' : (0 : ℚ) < prev := hpos prev (List.mem_of_mem_drop hprev)
    have hratio : (cur - prev) / prev = cur / prev - 1 := by
      rw [sub_div, div_self hprev'.ne']
    have hdiv : (0 : ℚ) < cur / prev := div_pos hcur' hprev'
    by_cases hpm : p > m
    · simp only [if_pos hpm, Int.cast_one, one_mul]
      rw [hratio]; linarith
    · simp only [if_neg hpm, Int.cast_zero, zero_mul]
      norm_num

/-- Concrete instantiation of `claim4_max_drawdown_nonpos` on the
two-element price series `idx = [1, 2, 3]`, `etf = [1, 2, 4]`, window 2. -/
theorem claim4_max_drawdown_nonpos_witness :
    (∃ d, Backtest.maxDrawdown
        (Backtest.cumprodOnePlus (Backtest.stratRetFinal 2 [1, 2, 3] [1, 2, 4])) =
          some d ∧ d ≤ 0) ∧
    (-1 : ℚ) < 1 := by
  have hval : Backtest.stratRetFinal 2 [1, 2, 3] [1, 2, 4] = [1] := by
    norm_num [Backtest.stratRetFinal, Backtest.signalCol, Backtest.validEtf, pctChangeVals,
      rollingMeanDrop, List.range_succ]
  have hp : ∀ p ∈ ([1, 2, 4] : List ℚ), 0 < p := by norm_num
  exact ⟨claim4_max_drawdown_nonpos.1 _ (by rw [hval]; simp)
      (claim4_max_drawdown_nonpos.2 2 [1, 2, 3] [1, 2, 4] hp),
    claim4_max_drawdown_nonpos.2 2 [1, 2, 3] [1, 2, 4] hp 1 (by rw [hval]; simp)⟩

/-! ## C5 — SHORT collapses to CASH when shorting is disabled -/

/-- C5: in the dual-MA + momentum backtest, for every indicator row
satisfying the short conditions (price below both moving averages and
rate-of-change below the negative threshold), the position is `0` (CASH)
when `use_shorts` is false and `-1` only when the explicit flag enables
shorting; likewise in the trade layer, a SHORT signal with `USE_SHORTS`
disabled behaves exactly as a CASH target. -/
theorem claim5_short_collapse (price sma200 sma50 roc θ : ℚ)
    (alloc pv tqP sqP : ℚ) (ctq csq : ℤ)
    (h200 : price < sma200) (h50 : price < sma50) (hroc : roc < -θ) :
    SoxlBacktest.positionRow false price sma200 sma50 roc θ = 0 ∧
    SoxlBacktest.positionRow true price sma200 sma50 roc θ = -1 ∧
    Trade.run_strategy_orders "SHORT" false alloc pv tqP sqP ctq csq =
      Trade.run_strategy_orders "CASH" false alloc pv tqP sqP ctq csq := by
  have hn200 : ¬(price > sma200) := not_lt.mpr h200.le
  have hn50 : ¬(price > sma50) := not_lt.mpr h50.le
  refine ⟨?_, ?_, rfl⟩ <;>
    simp [SoxlBacktest.positionRow, SoxlBacktest.positionOf, hn200, hn50, hroc]

/-- Concrete instantiation of `claim5_short_collapse`. -/
theorem claim5_short_collapse_witness :
    SoxlBacktest.positionRow false 1 2 2 (-1) (1/2) = 0 ∧
    SoxlBacktest.positionRow true 1 2 2 (-1) (1/2) = -1 ∧
    Trade.run_strategy_orders "SHORT" false 1 100000 50 10 5 3 =
      Trade.run_strategy_orders "CASH" false 1 100000 50 10 5 3 :=
  claim5_short_collapse 1 2 2 (-1) (1/2) 1 100000 50 10 5 3
    (by norm_num) (by norm_num) (by norm_num)

/-! ## C6 — dynamic allocation formula and bounds -/

theorem cps_eval (ts : ℚ) (vol : Option ℚ) (b : Bool) :
    SoxlStrategy.calculate_position_size ts vol b =
      min 1 (1/2 + 2 * |ts|) *
        (if gtNaNL vol (1/2) then 1/2 else if gtNaNL vol (7/20) then 3/4 else 1) := by
  simp only [SoxlStrategy.calculate_position_size]
  have habs : (0 : ℚ) ≤ |ts| := abs_nonneg ts
  have hcomm : (1/2 + |ts| * 2 : ℚ) = 1/2 + 2 * |ts| := by ring
  rw [hcomm, one_mul]
  have hA0 : (0 : ℚ) ≤ min 1 (1/2 + 2 * |ts|) := le_min (by norm_num) (by linarith)
  have hA1 : min 1 (1/2 + 2 * |ts| : ℚ) ≤ 1 := min_le_left _ _
  split_ifs <;> exact min_eq_right (by nlinarith)

theorem cps_bounds (ts : ℚ) (vol : Option ℚ) (b : Bool) :
    0 ≤ SoxlStrategy.calculate_position_size ts vol b ∧
      SoxlStrategy.calculate_position_size ts vol b ≤ 1 := by
  rw [cps_eval]
  have habs : (0 : ℚ) ≤ |ts| := abs_nonneg ts
  have hA0 : (0 : ℚ) ≤ min 1 (1/2 + 2 * |ts|) := le_min (by norm_num) (by linarith)
  have hA1 : min 1 (1/2 + 2 * |ts| : ℚ) ≤ 1 := min_le_left _ _
  constructor
  · split_ifs <;> nlinarith
  · split_ifs <;> nlinarith

theorem sigTriple_alloc (ts : ℚ) (vol : Option ℚ) (c1 c2 : Prop)
    [Decidable c1] [Decidable c2]
    (hls : (if c1 then ("LONG", "SOXL", SoxlStrategy.calculate_position_size ts vol true)
        else if c2 then ("SHORT", "SOXS", SoxlStrategy.calculate_position_size |ts| vol false)
        else ("CASH", "CASH", (0 : ℚ))).1 = "LONG" ∨
      (if c1 then ("LONG", "SOXL", SoxlStrategy.calculate_position_size ts vol true)
        else if c2 then ("SHORT", "SOXS", SoxlStrategy.calculate_position_size |ts| vol false)
        else ("CASH", "CASH", (0 : ℚ))).1 = "SHORT") :
    (if c1 then ("LONG", "SOXL", SoxlStrategy.calculate_position_size ts vol true)
        else if c2 then ("SHORT", "SOXS", SoxlStrategy.calculate_position_size |ts| vol false)
        else ("CASH", "CASH", (0 : ℚ))).2.2 =
      min 1 (1/2 + 2 * |ts|) *
        (if gtNaNL vol (1/2) then 1/2 else if gtNaNL vol (7/20) then 3/4 else 1) ∧
    0 ≤ (if c1 then ("LONG", "SOXL", SoxlStrategy.calculate_position_size ts vol true)
        else if c2 then ("SHORT", "SOXS", SoxlStrategy.calculate_position_size |ts| vol false)
        else ("CASH", "CASH", (0 : ℚ))).2.2 ∧
    (if c1 then ("LONG", "SOXL", SoxlStrategy.calculate_position_size ts vol true)
        else if c2 then ("SHORT", "SOXS", SoxlStrategy.calculate_position_size |ts| vol false)
        else ("CASH", "CASH", (0 : ℚ))).2.2 ≤ 1 := by
  by_cases h1 : c1
  · simp only [if_pos h1]
    exact ⟨cps_eval _ _ _, cps_bounds _ _ _⟩
  · by_cases h2 : c2
    · simp only [if_neg h1, if_pos h2]
      refine ⟨?_, cps_bounds _ _ _⟩
      rw [cps_eval, abs_abs]
    · simp only [if_neg h1, if_neg h2] at hls
      rcases hls with hls | hls <;> exact absurd hls (by decide)

/-- C6: the dual-policy position size is exactly
`min(1, 0.5 + 2·|trend_strength|)` times the three-band volatility
multiplier (1 up to 0.35 annualized, 3/4 up to 0.50, 1/2 above), and it
always lies in `[0, 1]`; the same holds for the allocation field of every
LONG or SHORT signal produced by the dual-MA + momentum generator. -/
theorem claim6_allocation (ts : ℚ) (vol : Option ℚ) (b : Bool)
    (ml ms rp : ℕ) (θ : ℚ) (s : ℚ → ℚ) (cl : List ℚ) (sig : SoxlStrategy.SoxlSig) :
    (SoxlStrategy.calculate_position_size ts vol b =
        min 1 (1/2 + 2 * |ts|) *
          (if gtNaNL vol (1/2) then 1/2 else if gtNaNL vol (7/20) then 3/4 else 1) ∧
      0 ≤ SoxlStrategy.calculate_position_size ts vol b ∧
      SoxlStrategy.calculate_position_size ts vol b ≤ 1) ∧
    (SoxlStrategy.get_signal ml ms rp θ s cl = some sig →
      sig.signal = "LONG" ∨ sig.signal = "SHORT" →
      sig.allocation =
        min 1 (1/2 + 2 * |sig.trendStrength|) *
          (if gtNaNL sig.volatility (1/2) then 1/2
           else if gtNaNL sig.volatility (7/20) then 3/4 else 1) ∧
      0 ≤ sig.allocation ∧ sig.allocation ≤ 1) := by
  refine ⟨⟨cps_eval ts vol b, cps_bounds ts vol b⟩, ?_⟩
  intro h hls
  simp only [SoxlStrategy.get_signal] at h
  split at h
  · exact absurd h (by simp)
  · obtain rfl := Option.some.inj h
    exact sigTriple_alloc _ _ _ _ hls

/-- Concrete instantiation of `claim6_allocation` on the series
`[1, 2, 4]` (LONG signal, trend strength `5/7`, volatility NaN). -/
theorem claim6_allocation_witness :
    (SoxlStrategy.calculate_position_size (5/7) none true =
        min 1 (1/2 + 2 * |(5/7 : ℚ)|) *
          (if gtNaNL none (1/2) then 1/2 else if gtNaNL none (7/20) then 3/4 else 1) ∧
      0 ≤ SoxlStrategy.calculate_position_size (5/7) none true ∧
      SoxlStrategy.calculate_position_size (5/7) none true ≤ 1) ∧
    (SoxlStrategy.soxlSigExample.allocation =
        min 1 (1/2 + 2 * |SoxlStrategy.soxlSigExample.trendStrength|) *
          (if gtNaNL SoxlStrategy.soxlSigExample.volatility (1/2) then 1/2
           else if gtNaNL SoxlStrategy.soxlSigExample.volatility (7/20) then 3/4 else 1) ∧
      0 ≤ SoxlStrategy.soxlSigExample.allocation ∧
      SoxlStrategy.soxlSigExample.allocation ≤ 1) := by
  have hev : SoxlStrategy.get_signal 3 2 1 (1/100) (fun q => q) [1, 2, 4] =
      some SoxlStrategy.soxlSigExample := by
    norm_num [SoxlStrategy.get_signal, SoxlStrategy.soxlSigExample, smaAt, rocAt, volAt,
      SoxlStrategy.calculate_position_size, gtNaN, ltNaN, gtNaNL, ltNaNL,
      SoxlStrategy.get_market_regime, abs_of_pos]
  exact ⟨(claim6_allocation (5/7) none true 3 2 1 (1/100) (fun q => q) [1, 2, 4]
        SoxlStrategy.soxlSigExample).1,
    (claim6_allocation (5/7) none true 3 2 1 (1/100) (fun q => q) [1, 2, 4]
        SoxlStrategy.soxlSigExample).2 hev (Or.inl rfl)⟩

/-! ## C7 — insufficient-history error -/

/-- C7 counterexample: the three-point series `[1, 2, 3]` with window 3
has exactly one valid indicator row (fewer than 2, so the previous row's
moving average is undefined), yet `get_signal` returns a signal payload
rather than signalling an error. -/
theorem claim7_counterexample :
    Strategy.validIndicatorRows 3 3 = 1 ∧ Strategy.validIndicatorRows 3 3 < 2 ∧
      (Strategy.get_signal 3 [1, 2, 3]).isSome = true := by
  refine ⟨rfl, by norm_num [Strategy.validIndicatorRows], ?_⟩
  rw [Strategy.get_signal, if_neg (by norm_num)]
  rfl

/-- C7 amended: both signal generators signal their error value exactly
when the series is shorter than the long moving-average window (zero valid
indicator rows), not when fewer than 2 valid rows exist; with exactly the
window length (one valid row) the single-MA generator returns a signal
whose crossover flags are false, because the comparisons against the
previous row's NaN moving average evaluate to false. -/
theorem claim7_insufficient_history :
    (∀ (w : ℕ) (closes : List ℚ), Strategy.get_signal w closes = none ↔ closes.length < w) ∧
    (∀ (ml ms rp : ℕ) (θ : ℚ) (s : ℚ → ℚ) (cl : List ℚ),
      SoxlStrategy.get_signal ml ms rp θ s cl = none ↔ cl.length < ml) ∧
    (∀ (w : ℕ) (closes : List ℚ) (sig : Strategy.TqqqSig), 2 ≤ w → closes.length = w →
      Strategy.get_signal w closes = some sig →
      sig.crossedUp = false ∧ sig.crossedDown = false) := by
  refine ⟨?_, ?_, ?_⟩
  · intro w closes
    rw [Strategy.get_signal]
    split_ifs with h <;> simp [h]
  · intro ml ms rp θ s cl
    rw [SoxlStrategy.get_signal]
    split_ifs with h <;> simp [h]
  · intro w closes sig hw hlen h
    have hsma : smaAt w closes (closes.length - 2) = none := by
      rw [smaAt, if_pos]; omega
    simp only [Strategy.get_signal] at h
    rw [if_neg (by omega)] at h
    obtain rfl := Option.some.inj h
    simp [hsma, leNaN, geNaN]

/-- Concrete instantiation of `claim7_insufficient_history` at window 3
and the series `[1, 2, 3]` of exactly the window length. -/
theorem claim7_insufficient_history_witness :
    (Strategy.get_signal 3 [1, 2, 3] = none ↔ ([1, 2, 3] : List ℚ).length < 3) ∧
    (SoxlStrategy.get_signal 3 2 1 (1/100) (fun q => q) [1, 2] = none ↔
      ([1, 2] : List ℚ).length < 3) ∧
    (Strategy.tqqqSigExample.crossedUp = false ∧
      Strategy.tqqqSigExample.crossedDown = false) :=
  ⟨claim7_insufficient_history.1 3 [1, 2, 3],
   claim7_insufficient_history.2.1 3 2 1 (1/100) (fun q => q) [1, 2],
   claim7_insufficient_history.2.2 3 [1, 2, 3] Strategy.tqqqSigExample
     (by norm_num) (by norm_num)
     (by norm_num [Strategy.get_signal, Strategy.tqqqSigExample, smaAt, leNaN, geNaN])⟩

/-! ## C8 — annualized-return guard against zero periods -/

/-- C8 counterexample: the single-MA backtest's annualized-return
computation (backtest.py lines 99–100) has no `periods = 0` guard — at
zero simulated periods `1/years` raises `ZeroDivisionError` (modelled as
`none`) instead of producing the sentinel `0`, so the guard does not hold
for every backtest entry point. -/
theorem claim8_counterexample :
    Backtest.annualReturnTqqq (fun a b => a * b) 0 0 = none := rfl

/-- C8 amended: the annualized return is
`(1 + total_return) ^ (252 / periods) - 1` in both backtests for positive
`periods`, but the `periods = 0` guard producing the sentinel `0` exists
only in the dual-MA (soxl) backtest; the single-MA backtest raises a
division-by-zero there. -/
theorem claim8_annual_return_guard (fpow : ℚ → ℚ → ℚ) (tr : ℚ) (n : ℕ) (hn : 0 < n) :
    SoxlBacktest.annualReturnSoxl fpow tr 0 = 0 ∧
    Backtest.annualReturnTqqq fpow tr 0 = none ∧
    SoxlBacktest.annualReturnSoxl fpow tr n = fpow (1 + tr) (252 / n) - 1 ∧
    Backtest.annualReturnTqqq fpow tr n = some (fpow (1 + tr) (252 / n) - 1) := by
  have hexp : (1 : ℚ) / ((n : ℚ) / 252) = 252 / n := one_div_div _ _
  have hpos : (0 : ℚ) < (n : ℚ) / 252 := by positivity
  refine ⟨?_, rfl, ?_, ?_⟩
  · simp [SoxlBacktest.annualReturnSoxl]
  · rw [SoxlBacktest.annualReturnSoxl, if_pos hpos, hexp]
  · rw [Backtest.annualReturnTqqq, if_neg hn.ne', hexp]

/-- Concrete instantiation of `claim8_annual_return_guard` at 3 periods. -/
theorem claim8_annual_return_guard_witness :
    SoxlBacktest.annualReturnSoxl (fun a b => a * b) (1/10) 0 = 0 ∧
    Backtest.annualReturnTqqq (fun a b => a * b) (1/10) 0 = none ∧
    SoxlBacktest.annualReturnSoxl (fun a b => a * b) (1/10) 3 =
      (fun a b => a * b) (1 + 1/10) (252 / 3) - 1 ∧
    Backtest.annualReturnTqqq (fun a b => a * b) (1/10) 3 =
      some ((fun a b => a * b) (1 + 1/10) (252 / 3) - 1) :=
  claim8_annual_return_guard (fun a b => a * b) (1/10) 3 (by norm_num)

/-! ## C9 — callers' frames are (mostly) not mutated -/

/-- C9 counterexample: backtest.py `run_backtest` assigns to
`index_data.columns` in place when the columns are a MultiIndex, so after
the call the caller's column index is flattened — the input frame is
modified, contradicting the claim that core components never mutate their
inputs. -/
theorem claim9_counterexample :
    (FrameEffect.runBacktestColsEffect
        (FrameEffect.PdCols.multi [("Close", "TQQQ")])
        (FrameEffect.PdCols.multi [("Close", "TQQQ")])).1 ≠
      FrameEffect.PdCols.multi [("Close", "TQQQ")] := by
  decide

/-- C9 amended: the signal generators and the indicator engine copy their
input frame before writing and the dual-MA backtest builds a fresh frame,
so those callers' frames are unchanged; the single-MA `run_backtest`
leaves flat-indexed inputs unchanged but flattens a multi-level column
index of its inputs in place. -/
theorem claim9_no_mutation (c i e : FrameEffect.PdCols) (ns : List String) :
    FrameEffect.getSignalFrameEffect c = c ∧
    FrameEffect.calculateIndicatorsFrameEffect c = c ∧
    FrameEffect.soxlRunBacktestFrameEffect c i e = (c, i, e) ∧
    FrameEffect.runBacktestColsEffect (FrameEffect.PdCols.flat ns) e =
      (FrameEffect.PdCols.flat ns, FrameEffect.flattenIfMulti e) :=
  ⟨rfl, rfl, rfl, rfl⟩

/-! ## C10 — crossover flags are mutually exclusive -/

/-- C10: in both signal generators, the crossed-up and crossed-down flags
of a produced signal are never both true: crossing up requires the price
strictly above the moving average and crossing down strictly below (in the
dual generator, one flag requires the above-MA boolean and the other its
negation). -/
theorem claim10_crossover_exclusive :
    (∀ (w : ℕ) (closes : List ℚ) (sig : Strategy.TqqqSig),
        Strategy.get_signal w closes = some sig →
        ¬(sig.crossedUp = true ∧ sig.crossedDown = true)) ∧
    (∀ (ml ms rp : ℕ) (θ : ℚ) (s : ℚ → ℚ) (cl : List ℚ) (sig : SoxlStrategy.SoxlSig),
        SoxlStrategy.get_signal ml ms rp θ s cl = some sig →
        ¬(sig.crossedUp200 = true ∧ sig.crossedDown200 = true)) := by
  constructor
  · intro w closes sig h
    simp only [Strategy.get_signal] at h
    split at h
    · exact absurd h (by simp)
    · obtain rfl := Option.some.inj h
      rintro ⟨h1, h2⟩
      simp only [Bool.and_eq_true, decide_eq_true_eq] at h1 h2
      exact lt_asymm h1.1 h2.1
  · intro ml ms rp θ s cl sig h
    simp only [SoxlStrategy.get_signal] at h
    split at h
    · exact absurd h (by simp)
    · obtain rfl := Option.some.inj h
      rintro ⟨h1, h2⟩
      simp only [Bool.and_eq_true, Bool.not_eq_true'] at h1 h2
      exact Bool.noConfusion (h1.1.symm.trans h2.1)

/-- Concrete instantiation of `claim10_crossover_exclusive` on the signal
produced from `[1, 2, 3]` with window 3. -/
theorem claim10_crossover_exclusive_witness :
    ¬(Strategy.tqqqSigExample.crossedUp = true ∧
        Strategy.tqqqSigExample.crossedDown = true) :=
  claim10_crossover_exclusive.1 3 [1, 2, 3] Strategy.tqqqSigExample
    (by norm_num [Strategy.get_signal, Strategy.tqqqSigExample, smaAt, leNaN, geNaN])
